import Mathlib

/-!
Verification of the streaming transcription engine
(`src/workers/whisper/transcribe.py`).

The engine's pure core is shallowly embedded here:
* string normalisation helpers mirroring Python `str.lower`, `str.strip`
  and `re.sub("[.,;:!?]", " ", -)`;
* an executable backtracking matcher for the compiled trigger pattern
  `([h]?an[n]?a)(.*?)(thank(?:s| you))`;
* the command extractor `get_cmd` and the main-loop feed/scan step;
* the transcript assembler commit step (`transcription[-1] += text` /
  `transcription.append(text)`);
* the phrase segmenter (`phrase_time` / `phrase_timeout` gap test);
* the per-drain engine step, a multi-drain run, and the session loop with
  its shutdown path;
* the PCM decode (`np.frombuffer(-, int16).astype(float32) / 32768.0`),
  modelled exactly over `Rat` (every value `k / 32768` with `|k| ≤ 2^15`
  is exactly representable in binary32, so the rational model is
  bit-faithful).

Byte buffers are `List Nat` (each entry one byte), timestamps are `Rat`
seconds, and the external recogniser is a function parameter.
-/

/-- Python `str.lower` restricted to the ASCII data this program handles. -/
def pyLower (s : String) : String :=
  ⟨s.data.map Char.toLower⟩

/-- Python whitespace, as recognised by `str.strip()`. -/
def isPySpace (c : Char) : Bool :=
  c = ' ' || c = '\t' || c = '\n' || c = '\r' || c = '\x0b' || c = '\x0c'

/-- Python `str.strip()`: drop leading and trailing whitespace. -/
def pyStrip (s : String) : String :=
  ⟨((s.data.dropWhile isPySpace).reverse.dropWhile isPySpace).reverse⟩

/-- `re.sub("[.,;:!?]", " ", s)` from `get_cmd`: sentence punctuation
becomes a space, everything else is kept. -/
def subPunct (s : String) : String :=
  ⟨s.data.map (fun c =>
    if c = '.' || c = ',' || c = ';' || c = ':' || c = '!' || c = '?' then ' ' else c)⟩

/-!
The compiled pattern `ptn = re.compile("([h]?an[n]?a)(.*?)(thank(?:s| you))")`.

Group 1 `[h]?an[n]?a` can only match one of the four literals
`hanna, hana, anna, ana`, and at a fixed start position at most one of
them is a prefix of the input (they pairwise disagree before either
ends), so group-1 backtracking reduces to trying them in the engine's
priority order (greedy `?`: with-`h` before without, with-`n` before
without).  Group 3 `thank(?:s| you)` tries `thanks` before `thank you`
(alternation order).  Group 2 `(.*?)` is lazy and `.` does not match a
newline.  `re.search` scans start positions left to right.
-/

/-- Group 3 `thank(?:s| you)` at the head of `l`: returns the matched
literal and the rest, preferring `thanks` (alternation order). -/
def g3Match (l : List Char) : Option (List Char × List Char) :=
  if "thanks".data.isPrefixOf l then some ("thanks".data, l.drop 6)
  else if "thank you".data.isPrefixOf l then some ("thank you".data, l.drop 9)
  else none

/-- Lazy middle `(.*?)` followed by group 3: the shortest non-newline
middle after which group 3 matches.  Returns `(middle, group3, rest)`. -/
def midThen : List Char → Option (List Char × List Char × List Char)
  | [] =>
    match g3Match [] with
    | some (g3, r) => some ([], g3, r)
    | none => none
  | c :: cs =>
    match g3Match (c :: cs) with
    | some (g3, r) => some ([], g3, r)
    | none =>
      if c = '\n' then none
      else (midThen cs).map (fun p => (c :: p.1, p.2.1, p.2.2))

/-- The four literals group 1 can match, in backtracking priority order,
filtered to those present at the head of `l` (at most one survives). -/
def g1Candidates (l : List Char) : List (List Char) :=
  ["hanna".data, "hana".data, "anna".data, "ana".data].filter
    (fun p => p.isPrefixOf l)

/-- Try the whole pattern at the head of `l`, with group 1 drawn from the
given candidate list; returns `(group1, group2, group3)`. -/
def tryCands (l : List Char) : List (List Char) → Option (List Char × List Char × List Char)
  | [] => none
  | g1 :: rest =>
    match midThen (l.drop g1.length) with
    | some (m, g3, _) => some (g1, m, g3)
    | none => tryCands l rest

/-- Try the whole pattern anchored at the head of `l`. -/
def tryAt (l : List Char) : Option (List Char × List Char × List Char) :=
  tryCands l (g1Candidates l)

/-- `ptn.search`: leftmost match, scanning start positions left to right.
Returns the three capture groups. -/
def ptnSearch : List Char → Option (List Char × List Char × List Char)
  | [] => tryAt []
  | c :: cs =>
    match tryAt (c :: cs) with
    | some r => some r
    | none => ptnSearch cs

/-- `get_cmd(transcript, ptn)` from the source: substitute punctuation,
strip, search; on a match return group 2 stripped, else `None`.
(The call sites pass `transcript.lower()`, so the argument here is the
already-lowered accumulator.) -/
def get_cmd (transcript : String) : Option String :=
  let cmd := pyStrip (subPunct transcript)
  match ptnSearch cmd.data with
  | some (_, g2, _) => some (pyStrip ⟨g2⟩)
  | none => none

/-- One command-extractor step of the main loop (lines 228–234):
`transcript += text + " "`, scan the lowered accumulator with `ptn`; on a
match print `get_cmd(...)` and reset the accumulator to `""`.
Returns the new accumulator and `some payload` when a command event was
emitted (`payload` is `get_cmd`'s result, itself an `Option`). -/
def feed (transcript text : String) : String × Option (Option String) :=
  let t := transcript ++ text ++ " "
  match ptnSearch (pyLower t).data with
  | some _ => ("", some (get_cmd (pyLower t)))
  | none => (t, none)

/-- Transcript assembler commit (lines 224–227).  `phrase_complete` true
appends a new line; false executes `transcription[-1] += text`, i.e. the
new text is concatenated onto the open last line.  (In the running
program the list is never empty: it starts as `[""]` and only grows; on
`[]` CPython would raise `IndexError`.) -/
def commit (transcription : List String) (text : String) (phrase_complete : Bool) :
    List String :=
  if phrase_complete then transcription ++ [text]
  else transcription.dropLast ++ [(transcription.getLast?.getD "") ++ text]

/-- Phrase segmentation on one non-empty drain (lines 196–204): a
boundary is signalled when a previous `phrase_time` exists and
`now - phrase_time > phrase_timeout`; `phrase_time` is then set to `now`
unconditionally.  Returns `(phrase_complete, new phrase_time)`. -/
def segmentStep (phrase_timeout : Rat) (phrase_time : Option Rat) (now : Rat) :
    Bool × Option Rat :=
  ((match phrase_time with
    | some t => decide (now - t > phrase_timeout)
    | none => false), some now)

/-- Segmenter run over the timestamps of successive non-empty drains,
collecting the boundary flag of each drain and the final `phrase_time`. -/
def segRun (phrase_timeout : Rat) (phrase_time : Option Rat) :
    List Rat → List Bool × Option Rat
  | [] => ([], phrase_time)
  | now :: rest =>
    let s := segmentStep phrase_timeout phrase_time now
    let r := segRun phrase_timeout s.2 rest
    (s.1 :: r.1, r.2)

/-- The spec's boundary rule, written from its words: given the previous
drain's timestamp and the remaining timestamps, a boundary is signalled
exactly when the gap strictly exceeds `phrase_timeout`. -/
def gapBoundaries (phrase_timeout : Rat) : Rat → List Rat → List Bool
  | _, [] => []
  | prev, t :: ts => decide (t - prev > phrase_timeout) :: gapBoundaries phrase_timeout t ts

/-- The mutable state the engine loop owns: `phrase_time`,
`transcription` (committed lines, initially `[""]`) and `transcript`
(the command accumulator). -/
structure EngineState where
  phrase_time : Option Rat
  transcription : List String
  transcript : String
deriving DecidableEq, Repr

/-- State at loop entry (lines 134, 167–168). -/
def initState : EngineState :=
  { phrase_time := none, transcription := [""], transcript := "" }

/-- One iteration of the main loop on a non-empty queue (lines 193–234).
`tr` abstracts `audio_model(audio_np)["text"]` as a function of the raw
drained bytes (the decode in between is deterministic), `chunks` is the
queue content at the drain.  The audio handed to the recogniser is
`b"".join(data_queue.queue)` — the chunks of this drain only — and the
queue is cleared.  Returns the new state, the bytes passed to the
recogniser, and the emitted command event, if any. -/
def stepDrain (phrase_timeout : Rat) (tr : List Nat → String) (s : EngineState)
    (now : Rat) (chunks : List (List Nat)) :
    EngineState × List Nat × Option (Option String) :=
  let seg := segmentStep phrase_timeout s.phrase_time now
  let audio_data := chunks.flatten
  let text := pyStrip (tr audio_data)
  let transcription := commit s.transcription text seg.1
  let f := feed s.transcript text
  ({ phrase_time := seg.2, transcription := transcription, transcript := f.1 },
   audio_data, f.2)

/-- Run the loop over a list of non-empty drains `(now, chunks)`,
collecting the byte buffer passed to the recogniser at each drain. -/
def runDrains (phrase_timeout : Rat) (tr : List Nat → String) :
    EngineState → List (Rat × List (List Nat)) → EngineState × List (List Nat)
  | s, [] => (s, [])
  | s, (now, chunks) :: rest =>
    let st := stepDrain phrase_timeout tr s now chunks
    let r := runDrains phrase_timeout tr st.1 rest
    (r.1, st.2.1 :: r.2)

/-- How the loop of one session ends: `KeyboardInterrupt` (the only
exception the loop's `try` catches, line 240) or an exception escaping
the loop (for example the recognition call raising, line 219). -/
inductive LoopExit where
  | interrupt : LoopExit
  | crash : String → LoopExit
deriving DecidableEq, Repr

/-- The session loop with a fallible recogniser (lines 191–241): drains
are processed in order; if the recognition call raises, the exception
escapes the `while` (only `KeyboardInterrupt` is caught) with
`phrase_time` already updated but `transcription`/`transcript` untouched
in that iteration; once all drains are processed the session is ended by
`KeyboardInterrupt`. -/
def runLoop (phrase_timeout : Rat) (tr : List Nat → Except String String) :
    EngineState → List (Rat × List (List Nat)) → EngineState × LoopExit
  | s, [] => (s, LoopExit.interrupt)
  | s, (now, chunks) :: rest =>
    let seg := segmentStep phrase_timeout s.phrase_time now
    match tr chunks.flatten with
    | Except.error e => ({ s with phrase_time := seg.2 }, LoopExit.crash e)
    | Except.ok rawText =>
      let text := pyStrip rawText
      let f := feed s.transcript text
      runLoop phrase_timeout tr
        { phrase_time := seg.2, transcription := commit s.transcription text seg.1,
          transcript := f.1 } rest

/-- `save_transcripts` as written (lines 40–42), at its annotated type
`list[str]`: the lines joined by newlines. -/
def save_transcripts (transcripts : List String) : String :=
  String.intercalate "\n" transcripts

/-- What line 246 actually writes: `save_transcripts(transcript)` passes
the accumulator *string*, and `"\n".join` over a Python `str` joins its
characters. -/
def mainSavedContent (transcript : String) : String :=
  String.intercalate "\n" (transcript.data.map Char.toString)

/-- File contents written by `main` after the loop (lines 243–246): on a
clean `KeyboardInterrupt` exit the accumulator string is written through
`mainSavedContent`; an exception escaping the loop skips lines 243–246,
so nothing is written. -/
def sessionWrites (phrase_timeout : Rat) (tr : List Nat → Except String String)
    (s : EngineState) (events : List (Rat × List (List Nat))) : List String :=
  match runLoop phrase_timeout tr s events with
  | (sF, LoopExit.interrupt) => [mainSavedContent sF.transcript]
  | (_, LoopExit.crash _) => []

/-- Outcome of `main`'s setup phase, before line 191. -/
inductive SetupOutcome (P : Type) where
  | abortedBeforeLoop : String → SetupOutcome P
  | enteredLoop : Option P → SetupOutcome P
deriving DecidableEq, Repr

/-- `load_model` (lines 55–87) with the external
`from_pretrained`/`pipeline` construction abstracted as an
`Except`-valued result: an exception is caught, a descriptive message is
printed, and `None` is returned.  Returns the model option paired with
the printed error lines. -/
def load_model (P : Type) (model_name : String) (loadResult : Except String P) :
    Option P × List String :=
  match loadResult with
  | Except.ok p => (some p, [])
  | Except.error e =>
    (none, ["Error loading model " ++ model_name ++ ": " ++ e])

/-- `main`'s control flow around model loading (lines 160–191): the
result of `load_model` is bound to `audio_model` and execution proceeds
unconditionally — `[READY]` is printed and the loop is entered with
whatever `load_model` returned; there is no abort branch. -/
def mainSetup (P : Type) (model_name : String) (loadResult : Except String P) :
    SetupOutcome P :=
  SetupOutcome.enteredLoop (load_model P model_name loadResult).1

/-- `np.frombuffer(audio_data, dtype=np.int16)` on a little-endian host:
consecutive byte pairs as two's-complement 16-bit integers; `numpy`
raises on a buffer whose length is not a multiple of 2. -/
def toInt16LE (lo hi : Nat) : Int :=
  let u := lo % 256 + 256 * (hi % 256)
  if u < 32768 then (u : Int) else (u : Int) - 65536

/-- The int16 view of a raw byte buffer. -/
def frombufferInt16 : List Nat → Option (List Int)
  | [] => some []
  | [_] => none
  | lo :: hi :: rest => (frombufferInt16 rest).map (fun t => toInt16LE lo hi :: t)

/-- The decode of lines 213–216: int16 view, `astype(np.float32)`,
divide by `32768.0`.  Every resulting value is `k / 32768` with
`|k| ≤ 2^15`, exactly representable in binary32, so `Rat` models the
float32 arithmetic exactly. -/
def audio_np (audio_data : List Nat) : Option (List Rat) :=
  (frombufferInt16 audio_data).map (fun ks => ks.map (fun k => (k : Rat) / 32768))

/-- Modelled from the spec's words ("interpreting the bytes as int16
samples and dividing each by 32768.0"): the signed value via the wrap
formula `(u + 2^15) mod 2^16 - 2^15`. -/
def int16OfBytesLE (lo hi : Nat) : Int :=
  (((lo % 256 + 256 * (hi % 256) + 32768) % 65536 : Nat) : Int) - 32768

/-- The decode as the spec describes it, for comparison with `audio_np`. -/
def decodeSpec : List Nat → Option (List Rat)
  | [] => some []
  | [_] => none
  | lo :: hi :: rest =>
    match decodeSpec rest with
    | some qs => some ((int16OfBytesLE lo hi : Rat) / 32768 :: qs)
    | none => none

/-- `pat` occurs as a contiguous substring of `l`. -/
def occursIn (pat : List Char) : List Char → Bool
  | [] => pat.isPrefixOf []
  | c :: cs => pat.isPrefixOf (c :: cs) || occursIn pat cs

/-! Helper lemmas. -/

theorem isPrefixOf_append_self (p b : List Char) : p.isPrefixOf (p ++ b) = true := by
  induction p with
  | nil => simp [List.isPrefixOf]
  | cons x xs ih => simp [List.isPrefixOf, ih]

theorem occursIn_of_isPrefixOf {p l : List Char} (h : p.isPrefixOf l = true) :
    occursIn p l = true := by
  cases l with
  | nil => simpa [occursIn] using h
  | cons c cs => simp [occursIn, h]

theorem occursIn_cons {p : List Char} (c : Char) {cs : List Char}
    (h : occursIn p cs = true) : occursIn p (c :: cs) = true := by
  simp [occursIn, h]

theorem occursIn_of_decomp (p a b : List Char) : occursIn p (a ++ p ++ b) = true := by
  induction a with
  | nil => simpa using occursIn_of_isPrefixOf (isPrefixOf_append_self p b)
  | cons c cs ih => simpa using occursIn_cons c (by simpa using ih)

theorem eq_append_drop_of_isPrefixOf {p l : List Char} (h : p.isPrefixOf l = true) :
    l = p ++ l.drop p.length := by
  obtain ⟨t, ht⟩ := List.isPrefixOf_iff_prefix.mp h
  subst ht
  simp

theorem g3Match_decomp {l g3 r : List Char} (h : g3Match l = some (g3, r)) :
    (g3 = "thanks".data ∨ g3 = "thank you".data) ∧ l = g3 ++ r := by
  unfold g3Match at h
  by_cases h1 : "thanks".data.isPrefixOf l = true
  · rw [if_pos h1] at h
    obtain ⟨rfl, rfl⟩ : g3 = "thanks".data ∧ r = l.drop 6 := by
      simpa [eq_comm] using h
    refine ⟨Or.inl rfl, ?_⟩
    simpa using eq_append_drop_of_isPrefixOf h1
  · rw [if_neg h1] at h
    by_cases h2 : "thank you".data.isPrefixOf l = true
    · rw [if_pos h2] at h
      obtain ⟨rfl, rfl⟩ : g3 = "thank you".data ∧ r = l.drop 9 := by
        simpa [eq_comm] using h
      refine ⟨Or.inr rfl, ?_⟩
      simpa using eq_append_drop_of_isPrefixOf h2
    · rw [if_neg h2] at h
      exact absurd h (by simp)

theorem midThen_decomp : ∀ {l m g3 r : List Char},
    midThen l = some (m, g3, r) →
    (g3 = "thanks".data ∨ g3 = "thank you".data) ∧ l = m ++ g3 ++ r := by
  intro l
  induction l with
  | nil =>
    intro m g3 r h
    simp [midThen, g3Match] at h
  | cons c cs ih =>
    intro m g3 r h
    unfold midThen at h
    cases hg : g3Match (c :: cs) with
    | some p =>
      rw [hg] at h
      obtain ⟨g3m, rm⟩ := p
      obtain ⟨rfl, rfl, rfl⟩ : m = [] ∧ g3 = g3m ∧ r = rm := by
        simpa [eq_comm] using h
      obtain ⟨hd, he⟩ := g3Match_decomp hg
      exact ⟨hd, by simpa using he⟩
    | none =>
      rw [hg] at h
      by_cases hc : c = '\n'
      · rw [if_pos hc] at h; exact absurd h (by simp)
      · rw [if_neg hc] at h
        cases hm : midThen cs with
        | none => rw [hm] at h; exact absurd h (by simp)
        | some q =>
          rw [hm] at h
          obtain ⟨mq, g3q, rq⟩ := q
          obtain ⟨rfl, rfl, rfl⟩ : m = c :: mq ∧ g3 = g3q ∧ r = rq := by
            simpa [eq_comm] using h
          obtain ⟨hd, he⟩ := ih hm
          exact ⟨hd, by simp [he]⟩

theorem tryCands_decomp : ∀ {l : List Char} (cl : List (List Char))
    {g1 g2 g3 : List Char},
    (∀ p ∈ cl, p.isPrefixOf l = true) →
    tryCands l cl = some (g1, g2, g3) →
    (g3 = "thanks".data ∨ g3 = "thank you".data) ∧ ∃ a r, l = a ++ g3 ++ r := by
  intro l cl
  induction cl with
  | nil => intro g1 g2 g3 _ h; exact absurd h (by simp [tryCands])
  | cons p ps ih =>
    intro g1 g2 g3 hpre h
    unfold tryCands at h
    cases hm : midThen (l.drop p.length) with
    | some q =>
      obtain ⟨mq, g3q, rq⟩ := q
      rw [hm] at h
      simp only [Option.some.injEq, Prod.mk.injEq] at h
      obtain ⟨hg1, hg2, hg3⟩ := h
      obtain ⟨hd, he⟩ := midThen_decomp hm
      have hp : p.isPrefixOf l = true := hpre p (by simp)
      refine ⟨hg3 ▸ hd, p ++ mq, rq, ?_⟩
      calc l = p ++ l.drop p.length := eq_append_drop_of_isPrefixOf hp
        _ = p ++ (mq ++ g3q ++ rq) := by rw [← he]
        _ = (p ++ mq) ++ g3q ++ rq := by simp
        _ = (p ++ mq) ++ g3 ++ rq := by rw [hg3]
    | none =>
      rw [hm] at h
      exact ih (fun q hq => hpre q (by simp [hq])) h

theorem tryAt_decomp {l g1 g2 g3 : List Char} (h : tryAt l = some (g1, g2, g3)) :
    (g3 = "thanks".data ∨ g3 = "thank you".data) ∧ ∃ a r, l = a ++ g3 ++ r := by
  refine tryCands_decomp (g1Candidates l) ?_ h
  intro p hp
  exact (List.mem_filter.mp hp).2

theorem ptnSearch_decomp : ∀ {l : List Char} {g1 g2 g3 : List Char},
    ptnSearch l = some (g1, g2, g3) →
    (g3 = "thanks".data ∨ g3 = "thank you".data) ∧ ∃ a r, l = a ++ g3 ++ r := by
  intro l
  induction l with
  | nil => intro g1 g2 g3 h; exact tryAt_decomp h
  | cons c cs ih =>
    intro g1 g2 g3 h
    unfold ptnSearch at h
    cases ht : tryAt (c :: cs) with
    | some q =>
      rw [ht] at h
      obtain ⟨q1, q2, q3⟩ := q
      obtain ⟨rfl, rfl, rfl⟩ : g1 = q1 ∧ g2 = q2 ∧ g3 = q3 := by
        simpa [eq_comm] using h
      exact tryAt_decomp ht
    | none =>
      rw [ht] at h
      obtain ⟨hd, a, r, he⟩ := ih h
      exact ⟨hd, c :: a, r, by simp [he]⟩

theorem ptnSearch_token {l : List Char} {t : List Char × List Char × List Char}
    (h : ptnSearch l = some t) :
    occursIn "thanks".data l = true ∨ occursIn "thank you".data l = true := by
  obtain ⟨g1, g2, g3⟩ := t
  obtain ⟨hd, a, r, he⟩ := ptnSearch_decomp h
  cases hd with
  | inl hg => subst hg; subst he; exact Or.inl (occursIn_of_decomp _ a r)
  | inr hg => subst hg; subst he; exact Or.inr (occursIn_of_decomp _ a r)

theorem feed_no_token (acc text : String)
    (h1 : occursIn "thanks".data (pyLower (acc ++ text ++ " ")).data = false)
    (h2 : occursIn "thank you".data (pyLower (acc ++ text ++ " ")).data = false) :
    feed acc text = (acc ++ text ++ " ", none) := by
  have hs : ptnSearch (pyLower (acc ++ text ++ " ")).data = none := by
    cases hsearch : ptnSearch (pyLower (acc ++ text ++ " ")).data with
    | none => rfl
    | some t =>
      rcases ptnSearch_token hsearch with hq | hq
      · rw [h1] at hq; exact absurd hq (by simp)
      · rw [h2] at hq; exact absurd hq (by simp)
  simp only [feed, hs]

theorem segRun_some (pt t0 : Rat) (ts : List Rat) :
    segRun pt (some t0) ts = (gapBoundaries pt t0 ts, some (ts.getLastD t0)) := by
  induction ts generalizing t0 with
  | nil => rfl
  | cons t rest ih =>
    simp only [segRun, segmentStep, gapBoundaries, ih, List.getLastD_cons]

theorem toInt16LE_eq_int16OfBytesLE (lo hi : Nat) :
    toInt16LE lo hi = int16OfBytesLE lo hi := by
  unfold toInt16LE int16OfBytesLE
  have h1 : lo % 256 + 256 * (hi % 256) < 65536 := by omega
  by_cases h : lo % 256 + 256 * (hi % 256) < 32768
  · have hm : (lo % 256 + 256 * (hi % 256) + 32768) % 65536
        = lo % 256 + 256 * (hi % 256) + 32768 := Nat.mod_eq_of_lt (by omega)
    rw [if_pos h, hm]
    push_cast
    ring
  · have hm : (lo % 256 + 256 * (hi % 256) + 32768) % 65536
        = lo % 256 + 256 * (hi % 256) - 32768 := by omega
    rw [if_neg h, hm]
    have h2 : 32768 ≤ lo % 256 + 256 * (hi % 256) := by omega
    push_cast [h2]
    ring

theorem audio_np_eq_decodeSpec (b : List Nat) : audio_np b = decodeSpec b := by
  induction b using frombufferInt16.induct with
  | case1 => rfl
  | case2 x => rfl
  | case3 lo hi rest ih =>
    unfold audio_np decodeSpec frombufferInt16
    unfold audio_np at ih
    cases h : frombufferInt16 rest with
    | none => simp [h] at ih ⊢; rw [← ih]
    | some ks => simp [h] at ih ⊢; rw [← ih]; simp [toInt16LE_eq_int16OfBytesLE]

/-! The claims. -/

/-- C1 counterexample: committing texts `a, b, c, d` with flags
`[false, false, true, false]` from the initial transcript yields
`["ab", "cd"]`, not `["c", "d"]` as the claim states, and a
`phrase_complete == false` commit appends to the open line instead of
replacing it (`commit ["x"] "y" false = ["xy"]`, not `["y"]`). -/
theorem commit_replace_claim_false :
    commit (commit (commit (commit [""] "a" false) "b" false) "c" true) "d" false
      = ["ab", "cd"]
    ∧ (["ab", "cd"] : List String) ≠ ["c", "d"]
    ∧ commit ["x"] "y" false = ["xy"]
    ∧ (["xy"] : List String) ≠ ["y"] := by decide

/-- C1 (amended): a commit with `phrase_complete == false` appends the
new text to the currently open last line (`transcription[-1] += text`);
for any four texts committed with flags `[false, false, true, false]`
from the initial transcript `[""]`, the result has exactly 2 lines,
line 1 the concatenation of the 1st and 2nd texts and line 2 the
concatenation of the 3rd and 4th texts. -/
theorem commit_append_semantics (t1 t2 t3 t4 : String) :
    commit (commit (commit (commit [""] t1 false) t2 false) t3 true) t4 false
      = [t1 ++ t2, t3 ++ t4] := by
  simp [commit]

/-- C2 counterexample: two drains of one chunk each, 2 s apart (below
the 4 s timeout, so no boundary): the audio handed to the recogniser on
the second drain is `[2]` — the current drain's chunk only — not the
whole-phrase concatenation `[1] ++ [2]` the claim requires. -/
theorem drain_audio_claim_false :
    (runDrains 4 (fun _ => "x") initState [(0, [[1]]), (2, [[2]])]).2 = [[1], [2]]
    ∧ ([[1], [2]] : List (List Nat)) ≠ [[1], [1] ++ [2]] := by decide

/-- C2 (amended): on every drain the audio passed to the recogniser is
exactly the concatenation of the chunks of that drain
(`b"".join(data_queue.queue)` after which the queue is cleared); no
audio from earlier drains is included. -/
theorem drain_audio_current_drain_only (pt : Rat) (tr : List Nat → String)
    (s : EngineState) (events : List (Rat × List (List Nat))) :
    (runDrains pt tr s events).2 = events.map (fun e => e.2.flatten) := by
  induction events generalizing s with
  | nil => rfl
  | cons e rest ih =>
    obtain ⟨now, chunks⟩ := e
    simp [runDrains, stepDrain, ih]

/-- C3: the code contradicts the claim (and its own annotation
`save_transcripts(transcripts: list[str])`): line 246 passes the
command-accumulator *string* `transcript`, so `"\n".join` joins its
characters.  A session with one drain recognised as `"hi"` commits the
line `"hi"`, yet the persisted content is `"h\ni\n "`, not the committed
lines joined by line breaks (`save_transcripts ["hi"] = "hi"`). -/
theorem session_persist_bug_eval :
    runLoop 4 (fun _ => Except.ok "hi") initState [(0, [[1]])]
      = ({ phrase_time := some 0, transcription := ["hi"], transcript := "hi " },
         LoopExit.interrupt)
    ∧ sessionWrites 4 (fun _ => Except.ok "hi") initState [(0, [[1]])] = ["h\ni\n "]
    ∧ save_transcripts ["hi"] = "hi"
    ∧ ("h\ni\n " : String) ≠ save_transcripts ["hi"] := by decide

/-- C4 counterexample: when model loading fails, `main` does not abort —
it enters the engine loop with `audio_model = None` (the
`SetupOutcome.enteredLoop none` outcome, distinct from any abort). -/
theorem setup_abort_claim_false :
    mainSetup Unit "distil-whisper/distil-small.en" (Except.error "weights missing")
      = SetupOutcome.enteredLoop none
    ∧ (SetupOutcome.enteredLoop (none : Option Unit)
        ≠ SetupOutcome.abortedBeforeLoop "weights missing") := by decide

/-- C4 (amended): if the load raises, `load_model` catches the
exception, prints the descriptive message
`Error loading model <name>: <e>`, and returns `None`; `main` still
enters the engine loop, with `audio_model = None`. -/
theorem load_failure_enters_loop (P : Type) (name e : String) :
    mainSetup P name (Except.error e) = SetupOutcome.enteredLoop none
    ∧ (load_model P name (Except.error e)).2
      = ["Error loading model " ++ name ++ ": " ++ e] :=
  ⟨rfl, rfl⟩

/-- C5 counterexample: the recogniser succeeds on the first drain
(`"hi"`, giving the nonempty partial transcript `"hi "`) and raises on
the second; the exception escapes the loop and `main` performs no file
write at all — the partial transcript is not persisted. -/
theorem crash_persist_claim_false :
    runLoop 4 (fun b => if b = [1] then Except.ok "hi" else Except.error "boom")
        initState [(0, [[1]]), (2, [[2]])]
      = ({ phrase_time := some 2, transcription := ["hi"], transcript := "hi " },
         LoopExit.crash "boom")
    ∧ sessionWrites 4 (fun b => if b = [1] then Except.ok "hi" else Except.error "boom")
        initState [(0, [[1]]), (2, [[2]])] = [] := by decide

/-- C5 (amended): if the external transcription call raises, the
exception propagates (only `KeyboardInterrupt` is caught) and the loop
terminates, but nothing is persisted: the write of lines 243–246 runs
only on the `KeyboardInterrupt` path, so a crashed session produces no
file write. -/
theorem crash_skips_persist (pt : Rat) (tr : List Nat → Except String String)
    (s sF : EngineState) (events : List (Rat × List (List Nat))) (e : String)
    (h : runLoop pt tr s events = (sF, LoopExit.crash e)) :
    sessionWrites pt tr s events = [] := by
  unfold sessionWrites
  rw [h]

/-- Witness for C5 (amended) at a concrete crashing session. -/
theorem crash_skips_persist_witness :
    sessionWrites 4 (fun b => if b = [1] then Except.ok "hi" else Except.error "boom")
      initState [(0, [[1]]), (2, [[2]])] = [] :=
  crash_skips_persist 4 (fun b => if b = [1] then Except.ok "hi" else Except.error "boom")
    initState { phrase_time := some 2, transcription := ["hi"], transcript := "hi " }
    [(0, [[1]]), (2, [[2]])] "boom" (by decide)

/-- C6: over any sequence of non-empty drains at timestamps
`t0 :: ts`, the segmenter signals a boundary exactly when the gap since
the previous non-empty drain strictly exceeds `phrase_timeout`
(`gapBoundaries`, written from the spec's rule), never on the first
drain, and `phrase_time` ends up as the timestamp of the last drain
(having been set to `now` on every drain). -/
theorem segmentation_boundaries_spec (pt t0 : Rat) (ts : List Rat) :
    segRun pt none (t0 :: ts) = (false :: gapBoundaries pt t0 ts, some (ts.getLastD t0)) := by
  simp only [segRun, segmentStep, segRun_some]

/-- C7: feeding `"hey hanna, please open the door, thanks"` emits the
payload `"please open the door"` (punctuation stripped, trimmed); and
whenever the lowered accumulated scan string contains neither closing
acknowledgment token (`thanks` / `thank you`), the feed yields no match
and the accumulator grows to `acc ++ text ++ " "`. -/
theorem command_extraction_p4 :
    feed "" "hey hanna, please open the door, thanks"
      = ("", some (some "please open the door"))
    ∧ ∀ acc text : String,
        occursIn "thanks".data (pyLower (acc ++ text ++ " ")).data = false →
        occursIn "thank you".data (pyLower (acc ++ text ++ " ")).data = false →
        feed acc text = (acc ++ text ++ " ", none) :=
  ⟨by decide, fun acc text h1 h2 => feed_no_token acc text h1 h2⟩

/-- Witness for C7 at a concrete token-free feed. -/
theorem command_extraction_p4_witness :
    feed "" "open sesame" = ("" ++ "open sesame" ++ " ", none) :=
  command_extraction_p4.2 "" "open sesame" (by decide) (by decide)

/-- C8: on every feed, a successful trigger match resets the
accumulator to the empty string (so the next feed scans from empty and
earlier text can never match again), and a non-matching feed leaves the
accumulator equal to the old one extended by the new text — monotone
growth. -/
theorem accumulator_reset_growth (acc text : String) :
    ((feed acc text).2 ≠ none → (feed acc text).1 = "")
    ∧ ((feed acc text).2 = none → (feed acc text).1 = acc ++ text ++ " ") := by
  unfold feed
  cases h : ptnSearch (pyLower (acc ++ text ++ " ")).data <;> simp [h]

/-- Witness for C8: a matching feed resets, a non-matching feed grows. -/
theorem accumulator_reset_growth_witness :
    (feed "" "hanna open thanks").1 = ""
    ∧ (feed "" "hello").1 = "" ++ "hello" ++ " " :=
  ⟨(accumulator_reset_growth "" "hanna open thanks").1 (by decide),
   (accumulator_reset_growth "" "hello").2 (by decide)⟩

/-- C9: the decode of the raw PCM buffer equals the spec's description —
little-endian byte pairs as two's-complement int16, each divided by
32768 (`decodeSpec`, written from the spec's words; computed exactly
over `Rat`, faithful to float32 since every `k/32768` with `|k| ≤ 2^15`
is exactly representable in binary32) — and decoding the same buffer
twice gives identical output. -/
theorem audio_decode_exact (b : List Nat) :
    audio_np b = decodeSpec b ∧ audio_np b = audio_np b :=
  ⟨audio_np_eq_decodeSpec b, rfl⟩

/-- C10: the wake group needs no leading `h` and the search uses no word
boundaries, so `"i ate a banana thanks"` — containing no wake word —
still matches: group 1 matches `ana` inside `banana` and the non-empty
payload `na` is emitted. -/
theorem trigger_banana_match :
    feed "" "i ate a banana thanks" = ("", some (some "na"))
    ∧ ptnSearch (pyLower ("" ++ "i ate a banana thanks" ++ " ")).data
      = some ("ana".data, "na ".data, "thanks".data) := by decide
